import Mathlib

/-!
Verification of the N-dimensional parameter scan routine `scan` from
`retro/scan.py` (repository IceCubeOpenSource/retro).

The embedding models the Python value universe that `scan` manipulates:
numeric scalars, `Sequence` collections (lists/tuples), and non-`Sequence`
iterables (generators).  Fallible operations (`next` on an empty iterator,
`iter` on a scalar, a raising metric callable, a raising `print` in the
progress report, `reshape` on a mismatched length) are modelled with
`Except`.  The progress/ETA arithmetic of lines 107-113 is pure
observability: the only program-visible effect of that block is that the
`print` call may raise, which is modelled by an explicit `report` action
passed to `scan`.  The `np.array(..., dtype=FTYPE)` cast keeps values
symbolic here (scalars are exact integers); floating-point rounding of the
cast is outside the embedding.
-/

namespace RetroScan

/-- A Python value as far as `scan` is concerned: a numeric scalar, a
`collections.Sequence` (list/tuple), or a non-`Sequence` iterable
(e.g. a generator), the latter carrying the values it will yield. -/
inductive PyVal where
  | int : Int → PyVal
  | list : List PyVal → PyVal
  | gen : List PyVal → PyVal

instance : Inhabited PyVal := ⟨PyVal.int 0⟩

/-- A Python dict from axis names to values, as an insertion-ordered
association list with unique keys (Python dict semantics). -/
abbrev Assign := List (String × PyVal)

/-- `np.isscalar`: true exactly on numeric scalars, false on sequences and
generators. -/
def np_isscalar : PyVal → Bool
  | .int _ => true
  | .list _ => false
  | .gen _ => false

/-- The exceptions `scan` can raise: `StopIteration` from
`next(iter(scan_values))` on an empty specification, `TypeError` from
`iter` of a scalar, an error raised by the metric callable, an error raised
by the progress `print`, and `ValueError` from `reshape` (never reachable). -/
inductive ScanErr (ε ρ : Type) where
  | stopIteration
  | typeError
  | metric (e : ε)
  | report (r : ρ)
  | valueError

/-- A dense numpy array: a shape together with its row-major flat data. -/
structure NDArray where
  shape : List Nat
  data : List PyVal

/-- Python dict assignment `d[k] = v`: overwrite in place if the key is
present, else append (insertion order preserved, last value wins). -/
def dictInsert (d : Assign) (k : String) (v : PyVal) : Assign :=
  if d.any (fun kv => kv.1 = k) then
    d.map (fun kv => if kv.1 = k then (k, v) else kv)
  else d ++ [(k, v)]

/-- `dict(pairs)`: build a Python dict from a list of key-value pairs. -/
def dictOfPairs (ps : List (String × PyVal)) : Assign :=
  ps.foldl (fun d kv => dictInsert d kv.1 kv.2) []

/-- `itertools.product(*ls)`: the Cartesian product of the given sequences,
first sequence outermost (so the last axis varies fastest). -/
def pyProduct {α : Type} : List (List α) → List (List α)
  | [] => [[]]
  | l :: ls => l.flatMap (fun x => (pyProduct ls).map (fun p => x :: p))

/-- Product of a list of naturals (`np.product(shape)`). -/
def listProd : List Nat → Nat
  | [] => 1
  | d :: ds => d * listProd ds

/-- Row-major (C-order) decomposition of a flat index into a multi-index
for the given shape. -/
def unrank : List Nat → Nat → List Nat
  | [], _ => []
  | _ :: ds, n => n / listProd ds :: unrank ds (n % listProd ds)

/-- Lines 90-94 of `scan.py`: normalize one axis specification.  A
`Sequence` is used as is; a scalar `sv` becomes `[sv]`; any other iterable
is materialized with `list(sv)`. -/
def normAxis : PyVal → List PyVal
  | .list vs => vs
  | .int v => [.int v]
  | .gen vs => vs

/-- Lines 84-85 of `scan.py`: `next(iter(scan_values))` followed by the
unwrapped-single-axis detection `scan_values = (scan_values,)`.  `iter` of
a scalar raises `TypeError`; `next` of an empty iterator raises
`StopIteration`.  For a generator the peeked element is consumed, so the
object that survives (wrapped or iterated) has lost its first element. -/
def topAxes {ε ρ : Type} : PyVal → Except (ScanErr ε ρ) (List PyVal)
  | .int _ => .error .typeError
  | .list vs =>
    match vs.head? with
    | none => .error .stopIteration
    | some first =>
      if np_isscalar first then .ok [PyVal.list vs] else .ok vs
  | .gen vs =>
    match vs.head? with
    | none => .error .stopIteration
    | some first =>
      if np_isscalar first then .ok [PyVal.gen (vs.drop 1)] else .ok (vs.drop 1)

/-- The reporting cadence (`report_after = 500` in `scan.py`). -/
def report_after : Nat := 500

/-- `np.array(vals).reshape(shape)`: succeeds only when the flat length
matches the product of the shape. -/
def np_reshape (data : List PyVal) (shape : List Nat) : Option NDArray :=
  if data.length = listProd shape then some ⟨shape, data⟩ else none

/-- Lines 103-114 of `scan.py`: the enumeration loop.  At point `n` the
metric is called on `dict(zip(hypo_params, param_values))`; its result is
appended; then, when `n > 0 and n % report_after == 0`, the progress
`print` runs and may itself raise.  Returns the trace of mappings actually
passed to the metric together with the collected results (or the first
error). -/
def scanLoop {ε ρ : Type} (hypo_params : List String) (metric_kw : Assign)
    (metric : Assign → Assign → Except ε PyVal) (report : Nat → Except ρ Unit) :
    Nat → List (List PyVal) → List Assign × Except (ScanErr ε ρ) (List PyVal)
  | _, [] => ([], Except.ok [])
  | n, p :: rest =>
    let d := dictOfPairs (hypo_params.zip p)
    match metric d metric_kw with
    | .error e => ([d], .error (.metric e))
    | .ok v =>
      if 0 < n ∧ n % report_after = 0 then
        match report n with
        | .error r => ([d], .error (.report r))
        | .ok _ =>
          let res := scanLoop hypo_params metric_kw metric report (n + 1) rest
          (d :: res.1, res.2.map (fun vs => v :: vs))
      else
        let res := scanLoop hypo_params metric_kw metric report (n + 1) rest
        (d :: res.1, res.2.map (fun vs => v :: vs))

/-- The `scan` routine of `scan.py`.  `metric_kw = none` models the Python
default `metric_kw=None` (replaced by `{}`).  Besides the result it returns
the trace of mappings passed to the metric, in call order. -/
def scan {ε ρ : Type} (hypo_params : List String) (scan_values : PyVal)
    (metric : Assign → Assign → Except ε PyVal)
    (metric_kw : Option Assign) (report : Nat → Except ρ Unit) :
    List Assign × Except (ScanErr ε ρ) NDArray :=
  let kw := metric_kw.getD []
  match (topAxes scan_values : Except (ScanErr ε ρ) (List PyVal)) with
  | .error e => ([], .error e)
  | .ok axes =>
    let scan_sequences := axes.map normAxis
    let shape := scan_sequences.map List.length
    let res := scanLoop hypo_params kw metric report 0 (pyProduct scan_sequences)
    match res.2 with
    | .error e => (res.1, .error e)
    | .ok vals =>
      match np_reshape vals shape with
      | none => (res.1, .error .valueError)
      | some arr => (res.1, .ok arr)

/-- A `print` that always succeeds (a writable stdout). -/
def okReport {ρ : Type} : Nat → Except ρ Unit := fun _ => Except.ok ()

/-- Python `d[k]` on the point mapping (used only by example metrics). -/
def dictGet (d : Assign) (k : String) : PyVal :=
  ((d.find? (fun kv => kv.1 == k)).map (fun kv => kv.2)).getD default

/-- Numeric content of a scalar (used only by example metrics). -/
def pyToInt : PyVal → Int
  | .int v => v
  | _ => 0


theorem pyProduct_length {α : Type} :
    ∀ ls : List (List α), (pyProduct ls).length = listProd (ls.map List.length)
  | [] => rfl
  | l :: ls => by
    simp only [pyProduct, listProd, List.map_cons]
    induction l with
    | nil => simp
    | cons x xs ih =>
      simp only [List.flatMap_cons, List.length_append, List.length_map, ih,
        List.length_cons, pyProduct_length ls]
      ring

theorem flatMap_const_length_getElem {α β : Type} (f : α → List β) (P : Nat)
    (x0 : α) (hf : ∀ x, (f x).length = P) :
    ∀ (l : List α) (n : Nat), n < l.length * P →
    (l.flatMap f)[n]? = (f (l.getD (n / P) x0))[n % P]? := by
  intro l
  induction l with
  | nil => intro n hn; simp at hn
  | cons x xs ih =>
    intro n hn
    have hP : 0 < P := by
      rcases Nat.eq_zero_or_pos P with h0 | h0
      · subst h0; simp at hn
      · exact h0
    by_cases hlt : n < P
    · have h1 : n / P = 0 := Nat.div_eq_of_lt hlt
      have h2 : n % P = n := Nat.mod_eq_of_lt hlt
      rw [List.flatMap_cons, List.getElem?_append_left (by rw [hf]; exact hlt)]
      simp [h1, h2]
    · push_neg at hlt
      have h1 : n / P = (n - P) / P + 1 := by
        rw [Nat.div_eq_sub_div hP hlt]
      have h2 : n % P = (n - P) % P := by
        rw [Nat.mod_eq_sub_mod hlt]
      have h3 : n - P < xs.length * P := by
        have h4 := hn
        rw [List.length_cons, Nat.succ_mul] at h4
        omega
      rw [List.flatMap_cons, List.getElem?_append_right (by rw [hf]; exact hlt), hf]
      rw [ih (n - P) h3, h1, h2]
      rfl

theorem pyProduct_getElem {α : Type} (x0 : α) :
    ∀ (seqs : List (List α)) (n : Nat), n < listProd (seqs.map List.length) →
    (pyProduct seqs)[n]? =
      some (List.zipWith (fun l i => l.getD i x0) seqs (unrank (seqs.map List.length) n)) := by
  intro seqs
  induction seqs with
  | nil =>
    intro n hn
    have : n = 0 := by simpa [listProd] using hn
    subst this
    rfl
  | cons l ls ih =>
    intro n hn
    simp only [List.map_cons, listProd] at hn
    have hP : 0 < listProd (ls.map List.length) := by
      rcases Nat.eq_zero_or_pos (listProd (ls.map List.length)) with h0 | h0
      · rw [h0, Nat.mul_zero] at hn; omega
      · exact h0
    have hblock : ∀ x : α,
        ((pyProduct ls).map (fun p => x :: p)).length = listProd (ls.map List.length) := by
      intro x; rw [List.length_map, pyProduct_length]
    rw [show pyProduct (l :: ls) = l.flatMap (fun x => (pyProduct ls).map (fun p => x :: p)) from rfl]
    rw [flatMap_const_length_getElem _ _ x0 hblock l n hn]
    rw [List.getElem?_map]
    rw [ih (n % listProd (ls.map List.length)) (Nat.mod_lt _ hP)]
    rfl

theorem pyProduct_eq_nil_of_mem {α : Type} :
    ∀ (ls : List (List α)), ([] : List α) ∈ ls → pyProduct ls = []
  | l :: ls, h => by
    rcases List.mem_cons.mp h with h1 | h2
    · subst h1; rfl
    · show (l.flatMap fun x => (pyProduct ls).map (fun p => x :: p)) = []
      rw [pyProduct_eq_nil_of_mem ls h2]
      simp

theorem listProd_eq_zero_of_mem : ∀ (ds : List Nat), 0 ∈ ds → listProd ds = 0
  | d :: ds, h => by
    rcases List.mem_cons.mp h with h1 | h2
    · simp [listProd, ← h1]
    · simp [listProd, listProd_eq_zero_of_mem ds h2]

theorem scanLoop_ok {ε ρ : Type} (hp : List String) (kw : Assign)
    (metric : Assign → Assign → Except ε PyVal) (f : Assign → PyVal)
    (hm : ∀ d, metric d kw = Except.ok (f d)) :
    ∀ (points : List (List PyVal)) (n : Nat),
    scanLoop hp kw metric (okReport : Nat → Except ρ Unit) n points
      = (points.map (fun p => dictOfPairs (hp.zip p)),
         Except.ok (points.map (fun p => f (dictOfPairs (hp.zip p))))) := by
  intro points
  induction points with
  | nil => intro n; rfl
  | cons p rest ih =>
    intro n
    simp only [scanLoop, hm]
    split
    · simp [okReport, ih (n + 1), Except.map]
    · simp [ih (n + 1), Except.map]

theorem scan_ok_spec {ε ρ : Type} (hp : List String) (s : PyVal) (rest : List PyVal)
    (metric : Assign → Assign → Except ε PyVal) (f : Assign → PyVal)
    (hs : np_isscalar s = false)
    (hm : ∀ d, metric d [] = Except.ok (f d)) :
    scan hp (PyVal.list (s :: rest)) metric none (okReport : Nat → Except ρ Unit)
      = ((pyProduct ((s :: rest).map normAxis)).map (fun p => dictOfPairs (hp.zip p)),
         Except.ok ⟨((s :: rest).map normAxis).map List.length,
           (pyProduct ((s :: rest).map normAxis)).map (fun p => f (dictOfPairs (hp.zip p)))⟩) := by
  have htop : (topAxes (PyVal.list (s :: rest)) : Except (ScanErr ε ρ) (List PyVal))
      = Except.ok (s :: rest) := by
    simp [topAxes, hs]
  simp only [scan, Option.getD, htop]
  rw [scanLoop_ok hp [] metric f hm]
  simp only [np_reshape, List.length_map, pyProduct_length]
  simp


theorem scanLoop_first_err {ε ρ : Type} (hp : List String) (kw : Assign)
    (metric : Assign → Assign → Except ε PyVal) :
    ∀ (points : List (List PyVal)) (k n : Nat) (pk : List PyVal) (e : ε),
    points[k]? = some pk →
    (∀ i p, i < k → points[i]? = some p → (metric (dictOfPairs (hp.zip p)) kw).isOk = true) →
    metric (dictOfPairs (hp.zip pk)) kw = Except.error e →
    scanLoop hp kw metric (okReport : Nat → Except ρ Unit) n points
      = ((points.take (k + 1)).map (fun p => dictOfPairs (hp.zip p)),
         Except.error (ScanErr.metric e)) := by
  intro points
  induction points with
  | nil => intro k n pk e hk; simp at hk
  | cons p rest ih =>
    intro k n pk e hk hok he
    cases k with
    | zero =>
      have hpk : pk = p := by simpa using hk.symm
      subst hpk
      simp [scanLoop, he]
    | succ k =>
      have h0 : (metric (dictOfPairs (hp.zip p)) kw).isOk = true :=
        hok 0 p (Nat.succ_pos k) (by simp)
      rcases hv : metric (dictOfPairs (hp.zip p)) kw with e0 | v
      · rw [hv] at h0; simp [Except.isOk, Except.toBool] at h0
      · have hk' : rest[k]? = some pk := by simpa using hk
        have hok' : ∀ i p', i < k → rest[i]? = some p' →
            (metric (dictOfPairs (hp.zip p')) kw).isOk = true := by
          intro i p' hi hp'
          exact hok (i + 1) p' (Nat.succ_lt_succ hi) (by simpa using hp')
        have hrec := ih k (n + 1) pk e hk' hok' he
        simp only [scanLoop, hv]
        split
        · simp [okReport, hrec, Except.map]
        · simp [hrec, Except.map]

theorem scanLoop_report_fail {ε ρ : Type} (hp : List String) (kw : Assign)
    (metric : Assign → Assign → Except ε PyVal) (f : Assign → PyVal) (r : ρ)
    (hm : ∀ d, metric d kw = Except.ok (f d)) :
    ∀ (points : List (List PyVal)) (n : Nat), n ≤ report_after →
    report_after < n + points.length →
    (scanLoop hp kw metric (fun _ => Except.error r) n points).2
      = Except.error (ScanErr.report r) := by
  intro points
  induction points with
  | nil => intro n h1 h2; simp at h2; omega
  | cons p rest ih =>
    intro n h1 h2
    simp only [scanLoop, hm]
    by_cases htr : 0 < n ∧ n % report_after = 0
    · rw [if_pos htr]
    · rw [if_neg htr]
      have hn : n < report_after := by
        rcases Nat.lt_or_ge n report_after with h | h
        · exact h
        · exfalso
          have : n = report_after := Nat.le_antisymm h1 h
          subst this
          exact htr ⟨by simp [report_after], Nat.mod_self _⟩
      have := ih (n + 1) (by omega) (by simp at h2; omega)
      simp [this, Except.map]


/-- Claim C1: for a valid (already wrapped) axis specification and a metric that
succeeds on every point, `scan` returns an array whose shape is the ordered
list of materialized per-axis lengths, axis `i` mapping to dimension `i`. -/
theorem scan_output_shape {ε : Type} (hp : List String) (s : PyVal) (rest : List PyVal)
    (metric : Assign → Assign → Except ε PyVal) (f : Assign → PyVal)
    (hs : np_isscalar s = false)
    (hm : ∀ d, metric d [] = Except.ok (f d)) :
    ∃ arr : NDArray,
      (scan hp (PyVal.list (s :: rest)) metric none (okReport : Nat → Except Unit Unit)).2
        = Except.ok arr ∧
      arr.shape = (s :: rest).map (fun sv => (normAxis sv).length) := by
  refine ⟨⟨((s :: rest).map normAxis).map List.length,
      (pyProduct ((s :: rest).map normAxis)).map (fun p => f (dictOfPairs (hp.zip p)))⟩, ?_, ?_⟩
  · rw [scan_ok_spec hp s rest metric f hs hm]
  · rw [List.map_map]
    rfl

/-- Witness for C1 at a concrete input. -/
theorem scan_output_shape_witness :
    ∃ arr : NDArray,
      (scan ["a"] (PyVal.list [PyVal.list [PyVal.int 1, PyVal.int 2]])
          (fun _ _ => (Except.ok (PyVal.int 7) : Except Unit PyVal)) none
          (okReport : Nat → Except Unit Unit)).2 = Except.ok arr ∧
      arr.shape = [PyVal.list [PyVal.int 1, PyVal.int 2]].map (fun sv => (normAxis sv).length) :=
  scan_output_shape ["a"] (PyVal.list [PyVal.int 1, PyVal.int 2]) []
    (fun _ _ => Except.ok (PyVal.int 7)) (fun _ => PyVal.int 7) rfl (fun _ => rfl)

/-- Claim C2: with an everywhere-succeeding metric, the metric is invoked on the
points of `itertools.product` in order, the flat (row-major) data of the
returned array is exactly the metric results in that order, and point `n`
of the enumeration selects from axis `i` the element at position `i` of the
row-major decomposition of `n` (last axis fastest). -/
theorem scan_row_major_enumeration {ε : Type} (hp : List String) (s : PyVal) (rest : List PyVal)
    (metric : Assign → Assign → Except ε PyVal) (f : Assign → PyVal)
    (hs : np_isscalar s = false)
    (hm : ∀ d, metric d [] = Except.ok (f d)) :
    scan hp (PyVal.list (s :: rest)) metric none (okReport : Nat → Except Unit Unit)
      = ((pyProduct ((s :: rest).map normAxis)).map (fun p => dictOfPairs (hp.zip p)),
         Except.ok ⟨((s :: rest).map normAxis).map List.length,
           (pyProduct ((s :: rest).map normAxis)).map (fun p => f (dictOfPairs (hp.zip p)))⟩)
    ∧ ∀ n, n < listProd (((s :: rest).map normAxis).map List.length) →
        (pyProduct ((s :: rest).map normAxis))[n]?
          = some (List.zipWith (fun l i => l.getD i default) ((s :: rest).map normAxis)
              (unrank (((s :: rest).map normAxis).map List.length) n)) :=
  ⟨scan_ok_spec hp s rest metric f hs hm,
   fun n hn => pyProduct_getElem default ((s :: rest).map normAxis) n hn⟩

/-- Witness for C2 at a concrete two-axis input. -/
theorem scan_row_major_enumeration_witness :
    scan ["a", "b"]
        (PyVal.list (PyVal.list [PyVal.int 1, PyVal.int 2] :: [PyVal.list [PyVal.int 10]]))
        (fun _ _ => (Except.ok (PyVal.int 7) : Except Unit PyVal)) none
        (okReport : Nat → Except Unit Unit)
      = ((pyProduct ((PyVal.list [PyVal.int 1, PyVal.int 2] :: [PyVal.list [PyVal.int 10]]).map normAxis)).map
            (fun p => dictOfPairs (["a", "b"].zip p)),
         Except.ok ⟨((PyVal.list [PyVal.int 1, PyVal.int 2] :: [PyVal.list [PyVal.int 10]]).map normAxis).map List.length,
           (pyProduct ((PyVal.list [PyVal.int 1, PyVal.int 2] :: [PyVal.list [PyVal.int 10]]).map normAxis)).map
             (fun p => (fun _ => PyVal.int 7) (dictOfPairs (["a", "b"].zip p)))⟩)
    ∧ ∀ n, n < listProd (((PyVal.list [PyVal.int 1, PyVal.int 2] :: [PyVal.list [PyVal.int 10]]).map normAxis).map List.length) →
        (pyProduct ((PyVal.list [PyVal.int 1, PyVal.int 2] :: [PyVal.list [PyVal.int 10]]).map normAxis))[n]?
          = some (List.zipWith (fun l i => l.getD i default)
              ((PyVal.list [PyVal.int 1, PyVal.int 2] :: [PyVal.list [PyVal.int 10]]).map normAxis)
              (unrank (((PyVal.list [PyVal.int 1, PyVal.int 2] :: [PyVal.list [PyVal.int 10]]).map normAxis).map List.length) n)) :=
  scan_row_major_enumeration ["a", "b"] (PyVal.list [PyVal.int 1, PyVal.int 2])
    [PyVal.list [PyVal.int 10]] (fun _ _ => Except.ok (PyVal.int 7)) (fun _ => PyVal.int 7)
    rfl (fun _ => rfl)

/-- The metric of the spec's worked example: `value_a * 100 + value_b`. -/
def exampleMetric (d : Assign) (_kw : Assign) : Except Unit PyVal :=
  Except.ok (PyVal.int (100 * pyToInt (dictGet d "a") + pyToInt (dictGet d "b")))

/-- Claim C3: the concrete example: axes `a = [1,2]`, `b = [10,20,30]`, metric
`a*100 + b`: the six invocations happen in the order
`(1,10),(1,20),(1,30),(2,10),(2,20),(2,30)` and the result is the 2x3
array `[[110,120,130],[210,220,230]]` (row-major data shown flat). -/
theorem scan_example_2x3 :
    scan ["a", "b"]
        (PyVal.list [PyVal.list [PyVal.int 1, PyVal.int 2],
                     PyVal.list [PyVal.int 10, PyVal.int 20, PyVal.int 30]])
        exampleMetric none (okReport : Nat → Except Unit Unit)
      = ([[("a", PyVal.int 1), ("b", PyVal.int 10)],
          [("a", PyVal.int 1), ("b", PyVal.int 20)],
          [("a", PyVal.int 1), ("b", PyVal.int 30)],
          [("a", PyVal.int 2), ("b", PyVal.int 10)],
          [("a", PyVal.int 2), ("b", PyVal.int 20)],
          [("a", PyVal.int 2), ("b", PyVal.int 30)]],
         Except.ok ⟨[2, 3], [PyVal.int 110, PyVal.int 120, PyVal.int 130,
                             PyVal.int 210, PyVal.int 220, PyVal.int 230]⟩) := rfl


/-- Claim C4: if the metric succeeds on every point before index `k` of the
enumeration and raises at index `k`, `scan` propagates that same error, the
metric is invoked exactly on the first `k+1` points (none after `k`), and
no result array is produced. -/
theorem scan_metric_error_propagates {ε : Type} (hp : List String) (s : PyVal)
    (rest : List PyVal) (metric : Assign → Assign → Except ε PyVal)
    (k : Nat) (pk : List PyVal) (e : ε)
    (hs : np_isscalar s = false)
    (hk : (pyProduct ((s :: rest).map normAxis))[k]? = some pk)
    (hok : ∀ p ∈ (pyProduct ((s :: rest).map normAxis)).take k,
        (metric (dictOfPairs (hp.zip p)) []).isOk = true)
    (he : metric (dictOfPairs (hp.zip pk)) [] = Except.error e) :
    scan hp (PyVal.list (s :: rest)) metric none (okReport : Nat → Except Unit Unit)
      = (((pyProduct ((s :: rest).map normAxis)).take (k + 1)).map
            (fun p => dictOfPairs (hp.zip p)),
         Except.error (ScanErr.metric e)) := by
  have htop : (topAxes (PyVal.list (s :: rest)) : Except (ScanErr ε Unit) (List PyVal))
      = Except.ok (s :: rest) := by simp [topAxes, hs]
  have hok' : ∀ i p, i < k → (pyProduct ((s :: rest).map normAxis))[i]? = some p →
      (metric (dictOfPairs (hp.zip p)) []).isOk = true := by
    intro i p hi hip
    apply hok
    have : ((pyProduct ((s :: rest).map normAxis)).take k)[i]? = some p := by
      rw [List.getElem?_take_of_lt hi]
      exact hip
    exact List.getElem?_mem this
  simp only [scan, Option.getD, htop]
  rw [scanLoop_first_err hp [] metric _ k 0 pk e hk hok' he]

/-- Witness for C4: a 3-point single-axis scan whose metric raises on the
second point (index 1). -/
theorem scan_metric_error_propagates_witness :
    scan ["a"] (PyVal.list (PyVal.list [PyVal.int 1, PyVal.int 2, PyVal.int 3] :: []))
        (fun d _ => if pyToInt (dictGet d "a") = 2 then Except.error () else Except.ok (PyVal.int 0))
        none (okReport : Nat → Except Unit Unit)
      = (((pyProduct ((PyVal.list [PyVal.int 1, PyVal.int 2, PyVal.int 3] :: []).map normAxis)).take 2).map
            (fun p => dictOfPairs (["a"].zip p)),
         Except.error (ScanErr.metric ())) := by
  apply scan_metric_error_propagates ["a"] (PyVal.list [PyVal.int 1, PyVal.int 2, PyVal.int 3]) []
      _ 1 [PyVal.int 2] ()
  · rfl
  · rfl
  · intro p hp0
    have hp1 : p = [PyVal.int 1] := by
      rw [show (pyProduct ((PyVal.list [PyVal.int 1, PyVal.int 2, PyVal.int 3] :: []).map normAxis)).take 1
            = [[PyVal.int 1]] from rfl] at hp0
      simpa using hp0
    rw [hp1]
    rfl
  · rfl

/-- Claim C5 fails on the code: with the zero-length axis specification `[[ ]]`
`scan` raises nothing and returns an empty array as a success result. -/
theorem scan_zero_length_axis_counterexample :
    scan ["a"] (PyVal.list [PyVal.list []])
        (fun _ _ => (Except.ok (PyVal.int 0) : Except Unit PyVal)) none
        (okReport : Nat → Except Unit Unit)
      = ([], Except.ok ⟨[0], []⟩) := rfl

/-- Claim C5 amended: for a specification containing a zero-length axis, `scan`
raises no configuration error; it invokes the metric zero times and returns
an empty array (shape containing 0) as a success result. -/
theorem scan_zero_length_axis_empty_success {ε ρ : Type} (hp : List String)
    (s : PyVal) (rest : List PyVal)
    (metric : Assign → Assign → Except ε PyVal) (kw : Option Assign)
    (report : Nat → Except ρ Unit)
    (hs : np_isscalar s = false)
    (hz : ∃ sv ∈ s :: rest, normAxis sv = []) :
    scan hp (PyVal.list (s :: rest)) metric kw report
      = ([], Except.ok ⟨(s :: rest).map (fun sv => (normAxis sv).length), []⟩) := by
  obtain ⟨sv, hmem, hnil⟩ := hz
  have hmem' : ([] : List PyVal) ∈ (s :: rest).map normAxis :=
    List.mem_map.mpr ⟨sv, hmem, hnil⟩
  have hzero : (0 : Nat) ∈ ((s :: rest).map normAxis).map List.length :=
    List.mem_map.mpr ⟨[], hmem', rfl⟩
  have htop : (topAxes (PyVal.list (s :: rest)) : Except (ScanErr ε ρ) (List PyVal))
      = Except.ok (s :: rest) := by simp [topAxes, hs]
  have hshape : ((s :: rest).map normAxis).map List.length
      = (s :: rest).map (fun sv => (normAxis sv).length) := by
    rw [List.map_map]
    rfl
  simp only [scan, htop]
  rw [pyProduct_eq_nil_of_mem _ hmem']
  simp only [scanLoop, np_reshape, List.length_nil]
  rw [if_pos (listProd_eq_zero_of_mem _ hzero).symm, hshape]

/-- Witness for C5 (amended) at a concrete input. -/
theorem scan_zero_length_axis_empty_success_witness :
    scan ["a"] (PyVal.list (PyVal.list [] :: []))
        (fun _ _ => (Except.ok (PyVal.int 0) : Except Unit PyVal)) none
        (okReport : Nat → Except Unit Unit)
      = ([], Except.ok ⟨(PyVal.list [] :: []).map (fun sv => (normAxis sv).length), []⟩) :=
  scan_zero_length_axis_empty_success ["a"] (PyVal.list []) []
    (fun _ _ => Except.ok (PyVal.int 0)) none okReport rfl
    ⟨PyVal.list [], List.mem_singleton.mpr rfl, rfl⟩

/-- Claim C6: a bare nonempty one-dimensional collection of scalars passed as the
whole axis specification is detected (first element scalar) and treated as
a single axis: the scan is identical to the explicitly wrapped form. -/
theorem scan_bare_collection_equiv {ε ρ : Type} (hp : List String) (v : Int) (vs : List Int)
    (metric : Assign → Assign → Except ε PyVal) (kw : Option Assign)
    (report : Nat → Except ρ Unit) :
    scan hp (PyVal.list ((v :: vs).map PyVal.int)) metric kw report
      = scan hp (PyVal.list [PyVal.list ((v :: vs).map PyVal.int)]) metric kw report := by
  simp [scan, topAxes, np_isscalar]


/-- Claim C8 fails on the code: with two axis names but only one axis
specification, `scan` raises nothing, silently truncates via
`dict(zip(...))`, invokes the metric once and returns a result array. -/
theorem scan_name_count_mismatch_counterexample :
    scan ["a", "b"] (PyVal.list [PyVal.list [PyVal.int 1]])
        (fun _ _ => (Except.ok (PyVal.int 7) : Except Unit PyVal)) none
        (okReport : Nat → Except Unit Unit)
      = ([[("a", PyVal.int 1)]], Except.ok ⟨[1], [PyVal.int 7]⟩) := rfl

/-- Claim C8 amended: `scan` performs no validation of the axis names at all: for
every `hypo_params` (mismatched length or duplicates included) and every
succeeding metric, it completes normally, invoking the metric on each point
with `dict(zip(hypo_params, point))`, where `zip` truncates to the shorter
list and duplicate names collapse with the last value winning. -/
theorem scan_no_name_validation {ε : Type} (hp : List String) (s : PyVal) (rest : List PyVal)
    (metric : Assign → Assign → Except ε PyVal) (f : Assign → PyVal)
    (hs : np_isscalar s = false)
    (hm : ∀ d, metric d [] = Except.ok (f d)) :
    scan hp (PyVal.list (s :: rest)) metric none (okReport : Nat → Except Unit Unit)
      = ((pyProduct ((s :: rest).map normAxis)).map (fun p => dictOfPairs (hp.zip p)),
         Except.ok ⟨((s :: rest).map normAxis).map List.length,
           (pyProduct ((s :: rest).map normAxis)).map (fun p => f (dictOfPairs (hp.zip p)))⟩) :=
  scan_ok_spec hp s rest metric f hs hm

/-- Witness for C8 (amended): duplicate axis names `a, a` with two axes;
the scan completes and the single point is collapsed to `a = 2`. -/
theorem scan_no_name_validation_witness :
    scan ["a", "a"] (PyVal.list (PyVal.list [PyVal.int 1] :: [PyVal.list [PyVal.int 2]]))
        (fun _ _ => (Except.ok (PyVal.int 7) : Except Unit PyVal)) none
        (okReport : Nat → Except Unit Unit)
      = ((pyProduct ((PyVal.list [PyVal.int 1] :: [PyVal.list [PyVal.int 2]]).map normAxis)).map
            (fun p => dictOfPairs (["a", "a"].zip p)),
         Except.ok ⟨((PyVal.list [PyVal.int 1] :: [PyVal.list [PyVal.int 2]]).map normAxis).map List.length,
           (pyProduct ((PyVal.list [PyVal.int 1] :: [PyVal.list [PyVal.int 2]]).map normAxis)).map
             (fun p => (fun _ => PyVal.int 7) (dictOfPairs (["a", "a"].zip p)))⟩) :=
  scan_no_name_validation ["a", "a"] (PyVal.list [PyVal.int 1]) [PyVal.list [PyVal.int 2]]
    (fun _ _ => Except.ok (PyVal.int 7)) (fun _ => PyVal.int 7) rfl (fun _ => rfl)

/-- A 501-value single axis used to reach the first reporting boundary. -/
def longAxis : List PyVal := (List.range 501).map (fun i => PyVal.int (Int.ofNat i))

set_option maxRecDepth 40000 in
/-- Claim C9 fails on the code: on a 501-point scan whose progress `print` raises
(e.g. stdout closed), the error escalates and aborts the scan at point 500;
no result array is returned. -/
theorem scan_report_failure_counterexample :
    (scan ["a"] (PyVal.list longAxis)
        (fun _ _ => (Except.ok (PyVal.int 0) : Except Unit PyVal)) none
        (fun _ => (Except.error () : Except Unit Unit))).2
      = Except.error (ScanErr.report ()) := rfl

/-- Claim C9 amended: a failure in the progress-reporting `print` is not caught:
with a metric that succeeds everywhere and a report action that always
fails, any scan of more than `report_after` points returns the reporting
error instead of a result array. -/
theorem scan_report_failure_propagates {ε ρ : Type} (hp : List String)
    (s : PyVal) (rest : List PyVal)
    (metric : Assign → Assign → Except ε PyVal) (f : Assign → PyVal) (r : ρ)
    (hs : np_isscalar s = false)
    (hm : ∀ d, metric d [] = Except.ok (f d))
    (hlen : report_after < (pyProduct ((s :: rest).map normAxis)).length) :
    (scan hp (PyVal.list (s :: rest)) metric none (fun _ => Except.error r)).2
      = Except.error (ScanErr.report r) := by
  have htop : (topAxes (PyVal.list (s :: rest)) : Except (ScanErr ε ρ) (List PyVal))
      = Except.ok (s :: rest) := by simp [topAxes, hs]
  have hrep : (scanLoop hp ((none : Option Assign).getD []) metric (fun _ => Except.error r) 0
      (pyProduct ((s :: rest).map normAxis))).2
      = Except.error (ScanErr.report r) :=
    scanLoop_report_fail hp [] metric f r hm _ 0 (Nat.zero_le _) (by simpa using hlen)
  simp only [scan, htop, hrep]

set_option maxRecDepth 40000 in
/-- Witness for C9 (amended): the concrete 501-point axis. -/
theorem scan_report_failure_propagates_witness :
    (scan ["a"] (PyVal.list (PyVal.list longAxis :: []))
        (fun _ _ => (Except.ok (PyVal.int 0) : Except Unit PyVal)) none
        (fun _ => (Except.error () : Except Unit Unit))).2
      = Except.error (ScanErr.report ()) :=
  scan_report_failure_propagates ["a"] (PyVal.list longAxis) []
    (fun _ _ => Except.ok (PyVal.int 0)) (fun _ => PyVal.int 0) ()
    rfl (fun _ => rfl) (by rw [show (pyProduct ((PyVal.list longAxis :: []).map normAxis)).length = 501 from rfl]; simp [report_after])

/-- Claim C10: the empty top-level axis specification makes
`next(iter(scan_values))` raise `StopIteration` before any metric
invocation; no array is returned. -/
theorem scan_empty_spec_raises {ε ρ : Type} (hp : List String)
    (metric : Assign → Assign → Except ε PyVal) (kw : Option Assign)
    (report : Nat → Except ρ Unit) :
    scan hp (PyVal.list []) metric kw report
      = ([], Except.error ScanErr.stopIteration) := rfl

end RetroScan
